import Mathlib

/-!
Verification of the health-check core of `flaki-service`.

The Go sources embedded here are:
* `pkg/health/component.go` — the `Status` enumeration, the display `Report`,
  the `Component` aggregator with its per-kind `*HealthChecks` projections,
  `AllHealthChecks`, the `err` rendering helper and the `determineStatus`
  escalation fold;
* the sentry checker module — `NewSentryModule`, `HealthChecks`,
  `sentryPingCheck` and `pingSentry`.

Go machine integers are modelled as `Int`, Go strings as `String` (the inputs
of interest are ASCII, so byte indices of `strings.LastIndex` coincide with
character indices), `nil`-able Go errors as `Option String` carrying the
error message, and `time.Duration` as a `Nat` count of nanoseconds.
-/

/-! ## Definitions -/

/-- Go type `Status int` from `component.go`. -/
abbrev Status := Int

/-- Go constant `OK Status = iota` (value 0). -/
def OK : Status := 0

/-- Go constant `KO` (value 1). -/
def KO : Status := 1

/-- Go constant `Degraded` (value 2). -/
def Degraded : Status := 2

/-- Go constant `Deactivated` (value 3). -/
def Deactivated : Status := 3

/-- The name table `names` local to `Status.String` in the Go source. -/
def statusNames : List String := ["OK", "KO", "Degraded", "Deactivated"]

/-- Embedding of the Go method `func (s Status) String() string`: the guard
`s < OK || s > Deactivated` returns "Unknown", otherwise the indexed access
`names[s]` is taken, modelled as `get?` so that staying in bounds is a
provable fact rather than an assumption. -/
def Status.String (s : Status) : String :=
  if s < OK ∨ Deactivated < s then "Unknown"
  else (statusNames.get? s.toNat).getD ""

/-- Go struct `Report` from `component.go`: the display-facing report whose
four fields are all strings. -/
structure Report where
  Name : String
  Duration : String
  Status : String
  Error : String
deriving DecidableEq, Repr

/-- The loop of `determineStatus`, with the `degraded` flag threaded
explicitly: `case Deactivated.String()` and `case KO.String()` return at
once, `case Degraded.String()` sets the flag, and falling off the loop
yields `Degraded` or `OK` according to the flag. -/
def determineStatusLoop : List Report → Bool → String
  | [], degraded => if degraded then Status.String Degraded else Status.String OK
  | r :: rs, degraded =>
    if r.Status = Status.String Deactivated then Status.String Deactivated
    else if r.Status = Status.String KO then Status.String KO
    else if r.Status = Status.String Degraded then determineStatusLoop rs true
    else determineStatusLoop rs degraded

/-- Embedding of `func determineStatus(reports []Report) string`. -/
def determineStatus (reports : List Report) : String :=
  determineStatusLoop reports false

/-- Modelled from the spec (§4.3): the reference escalation over the whole
sequence with precedence Deactivated > KO > Degraded > OK, used as the
comparison point for the refinement claim about `determineStatus`. -/
def referenceEscalation (reports : List Report) : String :=
  if reports.any (fun r => r.Status = Status.String Deactivated) then Status.String Deactivated
  else if reports.any (fun r => r.Status = Status.String KO) then Status.String KO
  else if reports.any (fun r => r.Status = Status.String Degraded) then Status.String Degraded
  else Status.String OK

/-- No report whose status is "KO" occurs at an earlier position than a
report whose status is "Deactivated". -/
def noKOBeforeDeactivated : List Report → Bool
  | [] => true
  | r :: rs =>
    ((if r.Status = Status.String KO
      then rs.all (fun x => !(x.Status = Status.String Deactivated))
      else true) && noKOBeforeDeactivated rs)

/-- Concrete display report with status "KO", for counterexamples. -/
def repKO : Report := ⟨"a", "", "KO", ""⟩

/-- Concrete display report with status "Deactivated", for counterexamples. -/
def repDeact : Report := ⟨"b", "", "Deactivated", ""⟩

/-- Concrete display report with status "Degraded". -/
def repDegraded : Report := ⟨"c", "", "Degraded", ""⟩

/-- Concrete display report with the unrecognized status "Unknown". -/
def repUnknown : Report := ⟨"x", "", "Unknown", ""⟩

/-- Concrete display report with an arbitrary unrecognized status. -/
def repOther : Report := ⟨"y", "", "whatever", ""⟩

/-- A Go `*http.Response` as `pingSentry` consumes it: the numeric status
code, the status line string `res.Status`, and the outcome of reading
`res.Body` to the end (`ioutil.ReadAll`): either the full content or a read
error message. -/
structure HTTPResponse where
  StatusCode : Int
  Status : String
  body : Except String String
deriving Repr

/-- The pair returned by one call of the Go HTTP client's
`Get(string) (*http.Response, error)`: a possibly-nil response and a
possibly-nil error. -/
structure GetResult where
  res : Option HTTPResponse
  err : Option String
deriving Repr

/-- Does the marker "/api/" occur in `dsn` at character position `i`? -/
def apiMarkerAt (dsn : String) (i : Nat) : Bool :=
  decide ((dsn.toList.drop i).take 5 = "/api/".toList)

/-- Greatest `j < n` with `p j = true`, scanning downward; `none` if there
is no such `j`. -/
def lastMatchAux (p : Nat → Bool) : Nat → Option Nat
  | 0 => none
  | n + 1 => if p n then some n else lastMatchAux p n

/-- Go standard library call `strings.LastIndex(dsn, "/api/")`, modelled by
its contract (the greatest character index at which the marker occurs;
`none` models the return value -1). -/
def lastAPIIdx (dsn : String) : Option Nat :=
  lastMatchAux (fun i => apiMarkerAt dsn i) (dsn.length + 1)

/-- URL construction at the head of `pingSentry`: truncate `dsn` at the last
occurrence of "/api/" and append "/_health"; when the marker is absent the
Go local `var url string` keeps its zero value "". -/
def sentryHealthURL (dsn : String) : String :=
  match lastAPIIdx dsn with
  | some idx => String.mk (dsn.toList.take idx) ++ "/_health"
  | none => ""

/-- The three ways `pingSentry` can leave its body: returning `nil`,
returning a non-nil error with the given message, or the nil-pointer
dereference at `res.StatusCode` when `Get` yields a nil response together
with a nil error. -/
inductive PingRet where
  | ok : PingRet
  | fail : String → PingRet
  | panicked : PingRet
deriving DecidableEq, Repr

/-- Observable outcome of one run of `pingSentry`: its return value, the
URLs passed to the HTTP client's `Get` (in order), whether a non-nil
response was obtained from `Get`, and whether `res.Body.Close()` ran before
the function returned. In the source the `defer res.Body.Close()` is
registered only after the `if err != nil` early return, so `released` is
false on that path even when a response was acquired. -/
structure PingResult where
  ret : PingRet
  calls : List String
  acquired : Bool
  released : Bool
deriving DecidableEq, Repr

/-- Embedding of `func pingSentry(dsn string, httpClient sentryHTTPClient) error`. -/
def pingSentry (dsn : String) (get : String → GetResult) : PingResult :=
  let url := sentryHealthURL dsn
  let g := get url
  match g.err with
  | some e => ⟨PingRet.fail e, [url], g.res.isSome, false⟩
  | none =>
    match g.res with
    | none => ⟨PingRet.panicked, [url], false, false⟩
    | some res =>
      if res.StatusCode ≠ 200 then
        ⟨PingRet.fail ("http response status code: " ++ res.Status), [url], true, true⟩
      else
        match res.body with
        | Except.error e => ⟨PingRet.fail e, [url], true, true⟩
        | Except.ok content =>
          if content = "ok" then ⟨PingRet.ok, [url], true, true⟩
          else
            ⟨PingRet.fail ("response should be \x27ok\x27 but is: " ++ content),
              [url], true, true⟩

/-- Go struct `SentryReport`: the internal report of the sentry checker,
with `time.Duration` as a nanosecond count and the `nil`-able error as an
`Option`. The Influx/Jaeger/Redis report structs of this package have
exactly the same four fields, so this type also stands for them below. -/
structure SentryReport where
  Name : String
  Duration : Nat
  Status : Status
  Error : Option String
deriving DecidableEq, Repr

/-- Go struct `SentryModule`. `sentryURL` models what `m.sentry.URL()`
returns, `httpGet` models `m.httpClient.Get`, and `elapsed` models the
wall-clock measurement `time.Since(now)` taken around the ping. -/
structure SentryModule where
  sentryURL : String
  httpGet : String → GetResult
  enabled : Bool
  elapsed : Nat

/-- Embedding of `func NewSentryModule(...) *SentryModule`. -/
def NewSentryModule (sentryURL : String) (httpGet : String → GetResult)
    (enabled : Bool) (elapsed : Nat) : SentryModule :=
  ⟨sentryURL, httpGet, enabled, elapsed⟩

/-- Embedding of `func (m *SentryModule) sentryPingCheck() SentryReport`.
The first component is the produced report (`none` models the Go panic
propagating out of `pingSentry`); the second lists the URLs fetched through
the HTTP client. -/
def sentryPingCheck (m : SentryModule) : Option SentryReport × List String :=
  if !m.enabled then
    (some ⟨"ping", 0, Deactivated, none⟩, [])
  else
    let p := pingSentry m.sentryURL m.httpGet
    match p.ret with
    | PingRet.fail e =>
        (some ⟨"ping", m.elapsed, KO, some ("could not ping sentry: " ++ e)⟩, p.calls)
    | PingRet.ok => (some ⟨"ping", m.elapsed, OK, none⟩, p.calls)
    | PingRet.panicked => (none, p.calls)

/-- Embedding of `func (m *SentryModule) HealthChecks(context.Context) []SentryReport`. -/
def SentryModule.HealthChecks (m : SentryModule) : Option (List SentryReport) × List String :=
  match sentryPingCheck m with
  | (some r, calls) => (some [r], calls)
  | (none, calls) => (none, calls)

/-- A sentry endpoint containing the "/api/" marker (at character index 17). -/
def dsnWithMarker : String := "https://sentry.io/api/1/store/"

/-- A sentry endpoint without the "/api/" marker. -/
def dsnNoMarker : String := "http://sentry.example.com"

/-- A healthy response: HTTP 200 with body exactly "ok". -/
def okResponse : HTTPResponse := ⟨200, "200 OK", Except.ok ("ok")⟩

/-- An HTTP client that always answers with `okResponse` and no error. -/
def okGet : String → GetResult := fun _ => ⟨some okResponse, none⟩

/-- An HTTP client whose `Get` returns a non-nil response together with a
non-nil error. -/
def leakGet : String → GetResult := fun _ => ⟨some okResponse, some ("transport troubles")⟩

/-- An enabled sentry module over the healthy client. -/
def mEnabled : SentryModule := ⟨dsnWithMarker, okGet, true, 5⟩

/-- Go standard library rendering `time.Duration.String()`; the standard
library is outside this repository, so the human rendering is modelled as
an opaque injective rendering of the nanosecond count. -/
def durationString (d : Nat) : String := toString d ++ "ns"

/-- Embedding of `func err(err error) string` from `component.go`: the
error's message, or the empty string for a nil error. -/
def err : Option String → String
  | none => ""
  | some e => e

/-- Go struct `Component`, shallowly: each field holds the report sequence
that the corresponding checker's `HealthChecks(ctx)` returns on this
invocation (the four Go report types are structurally identical, see
`SentryReport`). -/
structure Component where
  influx : List SentryReport
  jaeger : List SentryReport
  redis : List SentryReport
  sentry : List SentryReport

/-- Embedding of `func (c *Component) InfluxHealthChecks(ctx) []Report`. -/
def Component.InfluxHealthChecks (c : Component) : List Report :=
  c.influx.map (fun r => ⟨r.Name, durationString r.Duration, Status.String r.Status, err r.Error⟩)

/-- Embedding of `func (c *Component) JaegerHealthChecks(ctx) []Report`. -/
def Component.JaegerHealthChecks (c : Component) : List Report :=
  c.jaeger.map (fun r => ⟨r.Name, durationString r.Duration, Status.String r.Status, err r.Error⟩)

/-- Embedding of `func (c *Component) RedisHealthChecks(ctx) []Report`. -/
def Component.RedisHealthChecks (c : Component) : List Report :=
  c.redis.map (fun r => ⟨r.Name, durationString r.Duration, Status.String r.Status, err r.Error⟩)

/-- Embedding of `func (c *Component) SentryHealthChecks(ctx) []Report`. -/
def Component.SentryHealthChecks (c : Component) : List Report :=
  c.sentry.map (fun r => ⟨r.Name, durationString r.Duration, Status.String r.Status, err r.Error⟩)

/-- Embedding of `func (c *Component) AllHealthChecks(ctx) map[string]string`,
as the association list written in insertion order (the Go map holds exactly
these four keys). -/
def Component.AllHealthChecks (c : Component) : List (String × String) :=
  [("influx", determineStatus c.InfluxHealthChecks),
   ("jaeger", determineStatus c.JaegerHealthChecks),
   ("redis", determineStatus c.RedisHealthChecks),
   ("sentry", determineStatus c.SentryHealthChecks)]

/-- One internal report list where the single ping is OK. -/
def repsOK : List SentryReport := [⟨"ping", 3, OK, none⟩]

/-- One internal report list where the single ping is KO. -/
def repsKO : List SentryReport := [⟨"ping", 3, KO, some ("boom")⟩]

/-- A component whose four checkers all report OK. -/
def cAll : Component := ⟨repsOK, repsOK, repsOK, repsOK⟩

/-- Like `cAll` but with the sentry checker reporting KO. -/
def cKO : Component := ⟨repsOK, repsOK, repsOK, repsKO⟩

/-- A component with a single Degraded influx report. -/
def cOne : Component := ⟨[⟨"ping", 7, Degraded, some ("slow")⟩], [], [], []⟩

/-! ## Theorems -/

-- sanity checks on the four name strings and the two folds
example : Status.String OK = "OK" := by decide
example : Status.String KO = "KO" := by decide
example : Status.String Degraded = "Degraded" := by decide
example : Status.String Deactivated = "Deactivated" := by decide
example : Status.String 7 = "Unknown" := by decide
example : Status.String (-2) = "Unknown" := by decide
example : determineStatus [repKO, repDeact] = "KO" := by decide
example : referenceEscalation [repKO, repDeact] = "Deactivated" := by decide

/-! ### Escalation lemmas -/

theorem all_not_deactivated_any_false (rs : List Report)
    (hall : rs.all (fun x => !(x.Status = Status.String Deactivated)) = true) :
    rs.any (fun r => r.Status = Status.String Deactivated) = false := by
  rw [List.any_eq_false]
  intro x hx
  have hx2 := List.all_eq_true.mp hall x hx
  simpa using hx2

theorem degraded_ne_deactivated_str :
    Status.String Degraded ≠ Status.String Deactivated := by decide

theorem degraded_ne_ko_str : Status.String Degraded ≠ Status.String KO := by decide

theorem determineStatusLoop_eq (l : List Report) (d : Bool)
    (h : noKOBeforeDeactivated l = true) :
    determineStatusLoop l d =
      if l.any (fun r => r.Status = Status.String Deactivated) then Status.String Deactivated
      else if l.any (fun r => r.Status = Status.String KO) then Status.String KO
      else if d || l.any (fun r => r.Status = Status.String Degraded) then Status.String Degraded
      else Status.String OK := by
  induction l generalizing d with
  | nil => simp [determineStatusLoop]
  | cons r rs ih =>
    rw [noKOBeforeDeactivated, Bool.and_eq_true] at h
    by_cases hD : r.Status = Status.String Deactivated
    · simp [determineStatusLoop, hD]
    · by_cases hK : r.Status = Status.String KO
      · have hall : rs.all (fun x => !(x.Status = Status.String Deactivated)) = true := by
          have h1 := h.1
          rw [if_pos hK] at h1
          exact h1
        have hany := all_not_deactivated_any_false rs hall
        simp [determineStatusLoop, hD, hK, hany]
      · by_cases hG : r.Status = Status.String Degraded
        · rw [determineStatusLoop, if_neg hD, if_neg hK, if_pos hG, ih true h.2]
          simp [hD, hK, hG, degraded_ne_deactivated_str, degraded_ne_ko_str]
        · rw [determineStatusLoop, if_neg hD, if_neg hK, if_neg hG, ih d h.2]
          simp [hD, hK, hG]

theorem determineStatus_eq_ref (l : List Report)
    (h : noKOBeforeDeactivated l = true) :
    determineStatus l = referenceEscalation l := by
  rw [determineStatus, determineStatusLoop_eq l false h, referenceEscalation]
  simp

theorem noKOBefore_of_not_both (l : List Report)
    (h : ¬((∃ r ∈ l, r.Status = Status.String Deactivated) ∧
           (∃ r ∈ l, r.Status = Status.String KO))) :
    noKOBeforeDeactivated l = true := by
  induction l with
  | nil => rfl
  | cons r rs ih =>
    rw [noKOBeforeDeactivated, Bool.and_eq_true]
    refine ⟨?_, ?_⟩
    · by_cases hK : r.Status = Status.String KO
      · rw [if_pos hK, List.all_eq_true]
        intro x hx
        by_contra hxD
        simp only [Bool.not_eq_true, Bool.not_eq_false] at hxD
        have hxD2 : x.Status = Status.String Deactivated := by simpa using hxD
        exact h ⟨⟨x, List.mem_cons_of_mem r hx, hxD2⟩, ⟨r, List.mem_cons_self r rs, hK⟩⟩
      · rw [if_neg hK]
    · refine ih ?_
      rintro ⟨⟨a, ha, haD⟩, ⟨b, hb, hbK⟩⟩
      exact h ⟨⟨a, List.mem_cons_of_mem r ha, haD⟩, ⟨b, List.mem_cons_of_mem r hb, hbK⟩⟩

theorem referenceEscalation_perm (l₁ l₂ : List Report) (hp : l₁.Perm l₂) :
    referenceEscalation l₁ = referenceEscalation l₂ := by
  have hany : ∀ p : Report → Bool, l₁.any p = l₂.any p := by
    intro p
    cases hb : l₂.any p with
    | false =>
      rw [List.any_eq_false] at hb ⊢
      intro x hx
      exact hb x (hp.mem_iff.mp hx)
    | true =>
      rw [List.any_eq_true] at hb ⊢
      obtain ⟨x, hx, hpx⟩ := hb
      exact ⟨x, hp.mem_iff.mpr hx, hpx⟩
  rw [referenceEscalation, referenceEscalation, hany, hany, hany]

/-! ### Claims C1, C2, C10 -/

/-- C1 counterexample: on the list [KO-report, Deactivated-report] the fold
`determineStatus` returns "KO" (it stops at the first KO) while the reference
escalation with precedence Deactivated > KO returns "Deactivated", so the
claimed equality fails as stated. -/
theorem C1_counterexample :
    determineStatus [repKO, repDeact] ≠ referenceEscalation [repKO, repDeact] := by
  decide

/-- C1 (amended): for every report sequence in which no report with status
"KO" occurs at an earlier position than a report with status "Deactivated",
`determineStatus` equals the reference escalation with precedence
Deactivated > KO > Degraded > OK over the whole sequence. -/
theorem C1_determineStatus_matches_reference (l : List Report)
    (h : noKOBeforeDeactivated l = true) :
    determineStatus l = referenceEscalation l :=
  determineStatus_eq_ref l h

/-- Witness for C1 at a concrete mixed list with Deactivated before KO. -/
theorem C1_witness :
    noKOBeforeDeactivated [repDeact, repKO] = true ∧
    determineStatus [repDeact, repKO] = referenceEscalation [repDeact, repKO] :=
  ⟨by decide, C1_determineStatus_matches_reference _ (by decide)⟩

/-- C2 counterexample: the two-element lists [KO, Deactivated] and
[Deactivated, KO] are permutations of each other, yet `determineStatus`
returns "KO" on the first and "Deactivated" on the second, so the claimed
permutation invariance fails on multisets containing both statuses. -/
theorem C2_counterexample :
    List.Perm [repKO, repDeact] [repDeact, repKO] ∧
    determineStatus [repKO, repDeact] ≠ determineStatus [repDeact, repKO] :=
  ⟨List.Perm.swap _ _ _, by decide⟩

/-- C2 (amended): `determineStatus` is invariant under permutation of the
input list for every multiset of reports that does not contain both a
"Deactivated" report and a "KO" report. -/
theorem C2_determineStatus_perm_invariant (l₁ l₂ : List Report)
    (hp : l₁.Perm l₂)
    (h : ¬((∃ r ∈ l₁, r.Status = Status.String Deactivated) ∧
           (∃ r ∈ l₁, r.Status = Status.String KO))) :
    determineStatus l₁ = determineStatus l₂ := by
  have h₂ : ¬((∃ r ∈ l₂, r.Status = Status.String Deactivated) ∧
              (∃ r ∈ l₂, r.Status = Status.String KO)) := by
    rintro ⟨⟨a, ha, haD⟩, ⟨b, hb, hbK⟩⟩
    exact h ⟨⟨a, hp.mem_iff.mpr ha, haD⟩, ⟨b, hp.mem_iff.mpr hb, hbK⟩⟩
  rw [determineStatus_eq_ref l₁ (noKOBefore_of_not_both l₁ h),
      determineStatus_eq_ref l₂ (noKOBefore_of_not_both l₂ h₂),
      referenceEscalation_perm l₁ l₂ hp]

/-- Witness for C2 at a concrete permutation of a Degraded/KO multiset. -/
theorem C2_witness :
    determineStatus [repDegraded, repKO] = determineStatus [repKO, repDegraded] :=
  C2_determineStatus_perm_invariant _ _ (List.Perm.swap _ _ _) (by decide)

/-- C10: on every list with no "Deactivated", "KO" or "Degraded" report —
including the empty list and lists with unrecognized status strings —
`determineStatus` returns "OK". -/
theorem C10_unrecognized_statuses_yield_OK (l : List Report)
    (h : ∀ r ∈ l, r.Status ≠ Status.String Deactivated ∧
        r.Status ≠ Status.String KO ∧ r.Status ≠ Status.String Degraded) :
    determineStatus l = "OK" := by
  rw [determineStatus]
  induction l with
  | nil => decide
  | cons r rs ih =>
    have hr := h r (List.mem_cons_self r rs)
    rw [determineStatusLoop, if_neg hr.1, if_neg hr.2.1, if_neg hr.2.2]
    exact ih fun x hx => h x (List.mem_cons_of_mem r hx)

/-- Witness for C10 at a concrete list containing an "Unknown" status. -/
theorem C10_witness :
    determineStatus [repUnknown, repOther] = "OK" :=
  C10_unrecognized_statuses_yield_OK _ (by decide)

/-! ### Claim C8: totality of the status rendering -/

/-- C8: `Status.String` is total: each of the four defined values maps to its
name, every out-of-range integer maps to "Unknown", the result is never the
empty string, and in the in-range case the name-table access is in bounds. -/
theorem C8_statusString_total :
    Status.String OK = "OK" ∧ Status.String KO = "KO" ∧
    Status.String Degraded = "Degraded" ∧ Status.String Deactivated = "Deactivated" ∧
    ∀ s : Status,
      ((s < OK ∨ Deactivated < s) → Status.String s = "Unknown") ∧
      Status.String s ≠ "" ∧
      (¬(s < OK ∨ Deactivated < s) → (statusNames.get? s.toNat).isSome = true) := by
  refine ⟨by decide, by decide, by decide, by decide, fun s => ⟨?_, ?_, ?_⟩⟩
  · intro hs
    rw [Status.String, if_pos hs]
  · by_cases hs : s < OK ∨ Deactivated < s
    · rw [Status.String, if_pos hs]
      decide
    · have hb : (0 : Int) ≤ s ∧ s ≤ 3 := by
        simp only [OK, Deactivated, not_or, not_lt] at hs
        exact ⟨hs.1, hs.2⟩
      obtain ⟨h0, h3⟩ := hb
      interval_cases s <;> decide
  · intro hs
    have hb : (0 : Int) ≤ s ∧ s ≤ 3 := by
      simp only [OK, Deactivated, not_or, not_lt] at hs
      exact ⟨hs.1, hs.2⟩
    obtain ⟨h0, h3⟩ := hb
    interval_cases s <;> decide

/-- Witness for C8 at the out-of-range value 9 and the in-range value 2. -/
theorem C8_witness : Status.String 9 = "Unknown" ∧ Status.String 2 ≠ "" :=
  ⟨(C8_statusString_total.2.2.2.2 9).1 (by decide),
   (C8_statusString_total.2.2.2.2 2).2.1⟩

/-! ### URL resolution (claim C7) -/

theorem lastMatchAux_eq_none (p : Nat → Bool) (n : Nat) :
    lastMatchAux p n = none ↔ ∀ i, i < n → p i = false := by
  induction n with
  | zero => simp [lastMatchAux]
  | succ n ih =>
    rw [lastMatchAux]
    by_cases hp : p n = true
    · rw [if_pos hp]
      constructor
      · intro h
        exact absurd h (by simp)
      · intro h
        exact absurd (h n (Nat.lt_succ_self n)) (by simp [hp])
    · rw [if_neg hp, ih]
      constructor
      · intro h i hi
        rcases Nat.lt_succ_iff_lt_or_eq.mp hi with h1 | h1
        · exact h i h1
        · subst h1
          simp only [Bool.not_eq_true] at hp
          exact hp
      · intro h i hi
        exact h i (Nat.lt_succ_of_lt hi)

theorem lastMatchAux_eq_some (p : Nat → Bool) (n j : Nat)
    (h : lastMatchAux p n = some j) :
    p j = true ∧ j < n ∧ ∀ k, j < k → k < n → p k = false := by
  induction n with
  | zero => simp [lastMatchAux] at h
  | succ n ih =>
    rw [lastMatchAux] at h
    by_cases hp : p n = true
    · rw [if_pos hp] at h
      have hnj : n = j := by injection h
      subst hnj
      refine ⟨hp, Nat.lt_succ_self n, fun k hk1 hk2 => ?_⟩
      exact absurd (Nat.lt_of_lt_of_le hk1 (Nat.lt_succ_iff.mp hk2)) (Nat.lt_irrefl n)
    · rw [if_neg hp] at h
      obtain ⟨hj, hlt, hmax⟩ := ih h
      refine ⟨hj, Nat.lt_succ_of_lt hlt, fun k hjk hkn => ?_⟩
      rcases Nat.lt_succ_iff_lt_or_eq.mp hkn with h1 | h1
      · exact hmax k hjk h1
      · subst h1
        simp only [Bool.not_eq_true] at hp
        exact hp

theorem apiMarkerAt_lt_bound (dsn : String) (i : Nat) (h : apiMarkerAt dsn i = true) :
    i < dsn.length + 1 := by
  rw [apiMarkerAt] at h
  have h2 := of_decide_eq_true h
  have hlen : ((dsn.toList.drop i).take 5).length = 5 := by rw [h2]; rfl
  rw [List.length_take, List.length_drop] at hlen
  have hdl : dsn.toList.length = dsn.length := rfl
  rw [hdl] at hlen
  omega

/-- C7: the resolved health-check URL is the prefix of `dsn` up to the last
occurrence of the marker "/api/" with "/_health" appended when the marker
occurs, and the empty string when the marker does not occur anywhere. -/
theorem C7_sentryHealthURL_resolution (dsn : String) :
    ((∀ i, i ≤ dsn.length → apiMarkerAt dsn i = false) → sentryHealthURL dsn = "") ∧
    (∀ i, apiMarkerAt dsn i = true →
      ∃ j, apiMarkerAt dsn j = true ∧ (∀ k, j < k → apiMarkerAt dsn k = false) ∧
        sentryHealthURL dsn = String.mk (dsn.toList.take j) ++ "/_health") := by
  constructor
  · intro h
    have hn : lastAPIIdx dsn = none := by
      rw [lastAPIIdx, lastMatchAux_eq_none]
      intro i hi
      exact h i (Nat.lt_succ_iff.mp hi)
    rw [sentryHealthURL, hn]
  · intro i hi
    cases hl : lastAPIIdx dsn with
    | none =>
      rw [lastAPIIdx, lastMatchAux_eq_none] at hl
      have hfalse := hl i (apiMarkerAt_lt_bound dsn i hi)
      simp only at hfalse
      rw [hi] at hfalse
      exact Bool.noConfusion hfalse
    | some j =>
      have hs := lastMatchAux_eq_some (fun k => apiMarkerAt dsn k) (dsn.length + 1) j hl
      obtain ⟨hj, hjn, hmax⟩ := hs
      refine ⟨j, hj, ?_, ?_⟩
      · intro k hk
        by_cases hkn : k < dsn.length + 1
        · exact hmax k hk hkn
        · by_contra hkk
          simp only [Bool.not_eq_false] at hkk
          exact hkn (apiMarkerAt_lt_bound dsn k hkk)
      · rw [sentryHealthURL, hl]

/-- Witness for C7: the marker-free endpoint resolves to "", and the
marker-bearing endpoint resolves to its truncation at the last marker plus
"/_health". -/
theorem C7_witness :
    sentryHealthURL dsnNoMarker = "" ∧
    ∃ j, apiMarkerAt dsnWithMarker j = true ∧
      (∀ k, j < k → apiMarkerAt dsnWithMarker k = false) ∧
      sentryHealthURL dsnWithMarker = String.mk (dsnWithMarker.toList.take j) ++ "/_health" :=
  ⟨(C7_sentryHealthURL_resolution dsnNoMarker).1 (by decide),
   (C7_sentryHealthURL_resolution dsnWithMarker).2 17 (by decide)⟩

/-! ### Claims C3, C4, C9: the sentry checker -/

/-- C3: a sentry module constructed with enabled=false returns, for every
URL, every HTTP client and every clock value, exactly one report with
Status=Deactivated, zero Duration and nil Error, and performs no `Get`
call (the empty call list); in particular the result is independent of the
client and of the configured URL. -/
theorem C3_disabled_healthChecks (url : String) (get : String → GetResult) (elapsed : Nat) :
    (NewSentryModule url get false elapsed).HealthChecks =
      (some [⟨"ping", 0, Deactivated, none⟩], []) := rfl

/-- C4: for an enabled module the ping sub-check classifies the outcome of
the GET at the resolved health URL exactly as claimed: transport error →
KO wrapping the error; non-200 status → KO mentioning the status; body
(successfully read) different from "ok" → KO including the body; status 200
with body "ok" → OK with nil error. -/
theorem C4_enabled_ping_classification (m : SentryModule) (hen : m.enabled = true) :
    (∀ e, (m.httpGet (sentryHealthURL m.sentryURL)).err = some e →
        sentryPingCheck m =
          (some ⟨"ping", m.elapsed, KO, some ("could not ping sentry: " ++ e)⟩,
            [sentryHealthURL m.sentryURL])) ∧
    (∀ res, (m.httpGet (sentryHealthURL m.sentryURL)).err = none →
        (m.httpGet (sentryHealthURL m.sentryURL)).res = some res →
        res.StatusCode ≠ 200 →
        sentryPingCheck m =
          (some ⟨"ping", m.elapsed, KO,
              some ("could not ping sentry: http response status code: " ++ res.Status)⟩,
            [sentryHealthURL m.sentryURL])) ∧
    (∀ res content, (m.httpGet (sentryHealthURL m.sentryURL)).err = none →
        (m.httpGet (sentryHealthURL m.sentryURL)).res = some res →
        res.StatusCode = 200 →
        res.body = Except.ok content →
        content ≠ "ok" →
        sentryPingCheck m =
          (some ⟨"ping", m.elapsed, KO,
              some ("could not ping sentry: response should be \x27ok\x27 but is: " ++ content)⟩,
            [sentryHealthURL m.sentryURL])) ∧
    (∀ res, (m.httpGet (sentryHealthURL m.sentryURL)).err = none →
        (m.httpGet (sentryHealthURL m.sentryURL)).res = some res →
        res.StatusCode = 200 →
        res.body = Except.ok ("ok") →
        sentryPingCheck m =
          (some ⟨"ping", m.elapsed, OK, none⟩, [sentryHealthURL m.sentryURL])) := by
  refine ⟨?_, ?_, ?_, ?_⟩
  · intro e he
    simp [sentryPingCheck, pingSentry, hen, he]
  · intro res herr hres hsc
    simp [sentryPingCheck, pingSentry, hen, herr, hres, hsc]
    rw [← String.append_assoc]
    congr 1
  · intro res content herr hres hsc hbody hc
    simp [sentryPingCheck, pingSentry, hen, herr, hres, hsc, hbody, hc]
    rw [← String.append_assoc]
    congr 1
  · intro res herr hres hsc hbody
    simp [sentryPingCheck, pingSentry, hen, herr, hres, hsc, hbody]

/-- Witness for C4: the healthy client produces the OK report. -/
theorem C4_witness :
    sentryPingCheck mEnabled =
      (some ⟨"ping", 5, OK, none⟩, [sentryHealthURL dsnWithMarker]) :=
  (C4_enabled_ping_classification mEnabled rfl).2.2.2 okResponse rfl rfl rfl rfl

/-- C9 at the failing input: when `Get` returns a non-nil response together
with a non-nil error, `pingSentry` returns the error with the response
acquired but its body never released — the `defer res.Body.Close()` in the
source is registered only after the `if err != nil` early return, so this
exit path leaks the body, contradicting the claimed release on every exit
path. -/
theorem C9_body_not_released :
    (pingSentry dsnWithMarker leakGet).acquired = true ∧
    (pingSentry dsnWithMarker leakGet).released = false ∧
    (pingSentry dsnWithMarker leakGet).ret = PingRet.fail ("transport troubles") :=
  ⟨rfl, rfl, rfl⟩

/-! ### Claims C5, C6: the aggregator -/

theorem lookup_allHealthChecks (c : Component) :
    c.AllHealthChecks.lookup ("influx") = some (determineStatus c.InfluxHealthChecks) ∧
    c.AllHealthChecks.lookup ("jaeger") = some (determineStatus c.JaegerHealthChecks) ∧
    c.AllHealthChecks.lookup ("redis") = some (determineStatus c.RedisHealthChecks) ∧
    c.AllHealthChecks.lookup ("sentry") = some (determineStatus c.SentryHealthChecks) :=
  ⟨rfl, rfl, rfl, rfl⟩

/-- C5: `AllHealthChecks` has exactly the keys "influx", "jaeger", "redis",
"sentry", and the entry of each kind depends only on that kind's reports:
two components agreeing on one kind's reports have identical entries for
that kind, so a change confined to one kind never alters the other three. -/
theorem C5_allHealthChecks_keys_independent :
    (∀ c : Component,
      c.AllHealthChecks.map Prod.fst = ["influx", "jaeger", "redis", "sentry"]) ∧
    (∀ c₁ c₂ : Component, c₁.influx = c₂.influx →
      c₁.AllHealthChecks.lookup ("influx") = c₂.AllHealthChecks.lookup ("influx")) ∧
    (∀ c₁ c₂ : Component, c₁.jaeger = c₂.jaeger →
      c₁.AllHealthChecks.lookup ("jaeger") = c₂.AllHealthChecks.lookup ("jaeger")) ∧
    (∀ c₁ c₂ : Component, c₁.redis = c₂.redis →
      c₁.AllHealthChecks.lookup ("redis") = c₂.AllHealthChecks.lookup ("redis")) ∧
    (∀ c₁ c₂ : Component, c₁.sentry = c₂.sentry →
      c₁.AllHealthChecks.lookup ("sentry") = c₂.AllHealthChecks.lookup ("sentry")) := by
  refine ⟨fun c => rfl, ?_, ?_, ?_, ?_⟩
  · intro c₁ c₂ h
    rw [(lookup_allHealthChecks c₁).1, (lookup_allHealthChecks c₂).1]
    simp only [Component.InfluxHealthChecks]
    rw [h]
  · intro c₁ c₂ h
    rw [(lookup_allHealthChecks c₁).2.1, (lookup_allHealthChecks c₂).2.1]
    simp only [Component.JaegerHealthChecks]
    rw [h]
  · intro c₁ c₂ h
    rw [(lookup_allHealthChecks c₁).2.2.1, (lookup_allHealthChecks c₂).2.2.1]
    simp only [Component.RedisHealthChecks]
    rw [h]
  · intro c₁ c₂ h
    rw [(lookup_allHealthChecks c₁).2.2.2, (lookup_allHealthChecks c₂).2.2.2]
    simp only [Component.SentryHealthChecks]
    rw [h]

/-- Witness for C5: the key list at a concrete component, and influx
independence across two components that differ only in sentry reports. -/
theorem C5_witness :
    cAll.AllHealthChecks.map Prod.fst = ["influx", "jaeger", "redis", "sentry"] ∧
    cAll.AllHealthChecks.lookup ("influx") = cKO.AllHealthChecks.lookup ("influx") :=
  ⟨C5_allHealthChecks_keys_independent.1 cAll,
   C5_allHealthChecks_keys_independent.2.1 cAll cKO rfl⟩

/-- C6: the per-kind projection (shown on `InfluxHealthChecks`, the cited
method; the other three are verbatim copies) keeps the length and maps each
internal report element-wise: Name preserved, Duration rendered, Status
rendered by name, Error rendered as message-or-empty-string; being a total
function, the method cannot itself fail. -/
theorem C6_influxHealthChecks_projection (c : Component) :
    c.InfluxHealthChecks.length = c.influx.length ∧
    ∀ (i : Nat) (hi : i < c.influx.length) (ho : i < c.InfluxHealthChecks.length),
      (c.InfluxHealthChecks.get ⟨i, ho⟩).Name = (c.influx.get ⟨i, hi⟩).Name ∧
      (c.InfluxHealthChecks.get ⟨i, ho⟩).Duration =
        durationString (c.influx.get ⟨i, hi⟩).Duration ∧
      (c.InfluxHealthChecks.get ⟨i, ho⟩).Status =
        Status.String (c.influx.get ⟨i, hi⟩).Status ∧
      (c.InfluxHealthChecks.get ⟨i, ho⟩).Error =
        (match (c.influx.get ⟨i, hi⟩).Error with
         | none => ""
         | some msg => msg) := by
  constructor
  · rw [Component.InfluxHealthChecks, List.length_map]
  · intro i hi ho
    have hg : c.InfluxHealthChecks.get ⟨i, ho⟩ =
        (⟨(c.influx.get ⟨i, hi⟩).Name, durationString (c.influx.get ⟨i, hi⟩).Duration,
          Status.String (c.influx.get ⟨i, hi⟩).Status, err (c.influx.get ⟨i, hi⟩).Error⟩ :
          Report) := by
      simp [Component.InfluxHealthChecks]
    rw [hg]
    refine ⟨rfl, rfl, rfl, ?_⟩
    cases hE : (c.influx.get ⟨i, hi⟩).Error with
    | none => rfl
    | some msg => rfl

/-- Witness for C6 at a concrete component with one Degraded influx report. -/
theorem C6_witness :
    cOne.InfluxHealthChecks.length = cOne.influx.length ∧
    (cOne.InfluxHealthChecks.get ⟨0, by decide⟩).Status =
      Status.String (cOne.influx.get ⟨0, by decide⟩).Status :=
  ⟨(C6_influxHealthChecks_projection cOne).1,
   ((C6_influxHealthChecks_projection cOne).2 0 (by decide) (by decide)).2.2.1⟩
